import Mathlib

/-!
Verification development for the watchrs watch-and-reload supervisor.

The Rust sources are shallowly embedded as Lean functions:
* `Files`, `WatcherEvent` — the data model from `src/lib.rs`.
* `get_list_differences` — the manifest differ from `src/utils.rs`.
* `visit_dirs` / `grab_directory_and_files` — the manifest scanner from
  `src/utils.rs`, over an explicit filesystem tree in which directory reads
  and entry reads may fail.
* `dir_watcher` (`src/utils.rs`) and `dir_runner_step` (`src/runners.rs`) —
  the two directory-watcher loop variants present in the tree.
* `cmd_runner` (`src/utils.rs`) and `runners_cmd_runner` (`src/runners.rs`)
  — the two command-supervisor loop variants, as trace functions over the
  finite list of per-spawn outcomes.
* `get_executable_id` — the process identifier from `src/utils.rs`, over an
  explicit process-table snapshot.
* `event_handler_step` / `event_handler_run` — the event coordinator loop
  from `WatchRs::event_handler` in `src/lib.rs`.
-/

namespace WatchRs

/-- The file-manifest entry, `struct Files` in `src/lib.rs`: equality is the
derived structural equality over all fields, including the modification
time. Timestamps are modelled as naturals. -/
structure Files where
  name : String
  path : String
  time : Nat
  extension : String
deriving DecidableEq, Repr

/-- The event alphabet, `enum WatcherEvent` in `src/lib.rs`. Process ids are
modelled as naturals. -/
inductive WatcherEvent where
  | Starting : WatcherEvent
  | Watching (pid : Nat) (exeNames : List String) : WatcherEvent
  | FileChanged (files : List Files) : WatcherEvent
  | Stopping : WatcherEvent
  | Stopped : WatcherEvent
  | Error (msg : String) : WatcherEvent
  | Exit : WatcherEvent
deriving DecidableEq, Repr

/-- `get_list_differences` from `src/utils.rs` (lines 70–86): keep the items
of `list` for which `comparison_list.contains(item)` is false; the function
always returns `Ok`. The `io::Error` error type is modelled as `String`. -/
def get_list_differences {Item : Type} [DecidableEq Item]
    (list comparison_list : List Item) : Except String (List Item) :=
  Except.ok (list.filter (fun item =>
    if item ∈ comparison_list then false else true))

theorem get_list_differences_mem {Item : Type} [DecidableEq Item]
    (list comparison_list : List Item) (x : Item) :
    x ∈ (list.filter (fun item =>
      if item ∈ comparison_list then false else true)) ↔
      x ∈ list ∧ x ∉ comparison_list := by
  simp only [List.mem_filter]
  constructor
  · rintro ⟨hx, hf⟩
    refine ⟨hx, ?_⟩
    intro hc
    simp [hc] at hf
  · rintro ⟨hx, hc⟩
    exact ⟨hx, by simp [hc]⟩

/-- Claim C1: `get_list_differences current previous` succeeds and returns
exactly those entries of `current` that are not equal to any entry of
`previous`; an entry present in `previous` but absent from `current` is
never reported; and equality of `Files` values is full structural equality
over all fields, including the modification timestamp. -/
theorem c1_get_list_differences_spec :
    (∀ (current previous : List Files), ∃ r,
      get_list_differences current previous = Except.ok r ∧
      (∀ x, x ∈ r ↔ x ∈ current ∧ x ∉ previous) ∧
      (∀ x, x ∈ previous → x ∉ current → x ∉ r)) ∧
    (∀ a b : Files, a = b ↔
      a.name = b.name ∧ a.path = b.path ∧ a.time = b.time ∧
      a.extension = b.extension) := by
  constructor
  · intro current previous
    refine ⟨_, rfl, ?_, ?_⟩
    · intro x
      exact get_list_differences_mem current previous x
    · intro x _ hx hr
      exact hx ((get_list_differences_mem current previous x).1 hr).1
  · intro a b
    constructor
    · rintro rfl
      exact ⟨rfl, rfl, rfl, rfl⟩
    · obtain ⟨na, pa, ta, ea⟩ := a
      obtain ⟨nb, pb, tb, eb⟩ := b
      rintro ⟨h1, h2, h3, h4⟩
      simp_all

/-- A result of `self.watcher.recv()` in `WatchRs::event_handler`
(`src/lib.rs`): either an event or a channel receive error. -/
inductive RecvResult where
  | ok (e : WatcherEvent) : RecvResult
  | err : RecvResult
deriving DecidableEq, Repr

/-- Whether the coordinator loop body falls through to the next `recv` or
executes `break`. -/
inductive LoopAction where
  | continueLoop : LoopAction
  | stopLoop : LoopAction
deriving DecidableEq, Repr

/-- The externally visible side effects of one coordinator loop body
(terminal rendering, an out-of-scope collaborator, is not modelled). -/
inductive Effect where
  | killProcess (pid : Nat) : Effect
  | spawnDirWatcher : Effect
  | reportError (msg : String) : Effect
deriving DecidableEq, Repr

/-- The mutable coordinator state touched by `WatchRs::event_handler`:
the tracked `process_id` field of `WatchRs` (`src/lib.rs`). -/
structure WatchRsState where
  process_id : Option Nat
deriving DecidableEq, Repr

/-- One iteration of the `WatchRs::event_handler` receive loop
(`src/lib.rs` lines 245–383):
* `Watching(pid, names)` assigns `process_id := some pid` (the prints and
  the multiple-executable warning are rendering only);
* `FileChanged(files)` kills the tracked process when one is set, then
  respawns the directory watcher, leaving `process_id` unchanged;
* `Error(err)` prints the message and falls through to the next receive;
* `Exit` breaks the loop;
* `Starting`, `Stopping`, `Stopped` and a receive error do nothing. -/
def event_handler_step (s : WatchRsState) :
    RecvResult → WatchRsState × LoopAction × List Effect
  | .ok (.Watching pid _exeNames) => (⟨some pid⟩, .continueLoop, [])
  | .ok (.FileChanged _files) =>
      (s, .continueLoop,
        (match s.process_id with
          | some pid => [Effect.killProcess pid]
          | none => []) ++ [Effect.spawnDirWatcher])
  | .ok (.Error msg) => (s, .continueLoop, [Effect.reportError msg])
  | .ok .Exit => (s, .stopLoop, [])
  | .ok _ => (s, .continueLoop, [])
  | .err => (s, .continueLoop, [])

/-- Run of `WatchRs::event_handler` over a finite prefix of receive
results. When the loop breaks (only the `Exit` branch does), control
returns from `event_handler` and `begin_watching` returns `Ok(())`, so the
program's exit status is 0, recorded as `some 0`; `none` means the loop is
still waiting for further events. -/
def event_handler_run (s : WatchRsState) :
    List RecvResult → WatchRsState × Option Nat
  | [] => (s, none)
  | r :: rest =>
      match event_handler_step s r with
      | (s', .stopLoop, _) => (s', some 0)
      | (s', .continueLoop, _) => event_handler_run s' rest

/-- Claim C2 counterexample: receiving `Error "boom"` does not terminate
the program at all — the coordinator reports the message and keeps
looping (exit status `none`, in particular not the claimed exit code 1). -/
theorem c2_error_no_exit_counterexample :
    event_handler_run ⟨none⟩ [RecvResult.ok (WatcherEvent.Error "boom")] =
      (⟨none⟩, none) ∧
    (event_handler_run ⟨none⟩
      [RecvResult.ok (WatcherEvent.Error "boom")]).2 ≠ some 1 := by
  constructor
  · rfl
  · decide

/-- Claim C2 (amended): when the coordinator receives `Error(msg)` it
reports the message and continues the receive loop with its state
unchanged — the program does not terminate on `Error` — while an `Exit`
event breaks the loop and the program terminates with exit code 0. -/
theorem c2_error_reports_exit_zero :
    (∀ (s : WatchRsState) (msg : String),
      event_handler_step s (RecvResult.ok (WatcherEvent.Error msg)) =
        (s, LoopAction.continueLoop, [Effect.reportError msg])) ∧
    (∀ (s : WatchRsState) (msg : String) (rest : List RecvResult),
      event_handler_run s (RecvResult.ok (WatcherEvent.Error msg) :: rest) =
        event_handler_run s rest) ∧
    (∀ (s : WatchRsState) (rest : List RecvResult),
      event_handler_run s (RecvResult.ok WatcherEvent.Exit :: rest) =
        (s, some 0)) := by
  refine ⟨fun s msg => rfl, fun s msg rest => rfl, fun s rest => rfl⟩

/-- Claim C10: in the coordinator's receive loop, `process_id` is assigned
only in the `Watching` branch (where it becomes `some pid`); handling any
other received event and any channel receive error leaves `process_id`
unchanged. -/
theorem c10_process_id_frame :
    (∀ (s : WatchRsState) (r : RecvResult),
      (∀ (pid : Nat) (names : List String),
        r ≠ RecvResult.ok (WatcherEvent.Watching pid names)) →
      (event_handler_step s r).1.process_id = s.process_id) ∧
    (∀ (s : WatchRsState) (pid : Nat) (names : List String),
      (event_handler_step s
        (RecvResult.ok (WatcherEvent.Watching pid names))).1.process_id =
        some pid) := by
  constructor
  · intro s r hr
    match r with
    | .ok (.Watching pid names) => exact absurd rfl (hr pid names)
    | .ok .Starting => rfl
    | .ok (.FileChanged files) => rfl
    | .ok .Stopping => rfl
    | .ok .Stopped => rfl
    | .ok (.Error msg) => rfl
    | .ok .Exit => rfl
    | .err => rfl
  · intro s pid names
    rfl

/-- Witness for `c10_process_id_frame`: at the concrete state
`⟨some 7⟩` and the received event `Starting`, `process_id` is unchanged,
and a received `Watching 5 []` sets it to `some 5`. -/
theorem c10_process_id_frame_witness :
    (event_handler_step ⟨some 7⟩
      (RecvResult.ok WatcherEvent.Starting)).1.process_id = some 7 ∧
    (event_handler_step ⟨some 7⟩
      (RecvResult.ok (WatcherEvent.Watching 5 []))).1.process_id = some 5 := by
  constructor
  · exact c10_process_id_frame.1 ⟨some 7⟩ (RecvResult.ok WatcherEvent.Starting)
      (by intro pid names h; cases h)
  · exact c10_process_id_frame.2 ⟨some 7⟩ 5 []

/-- `dir_watcher` from `src/utils.rs` (lines 93–115), as a function of the
initial scan (`file_names`, the baseline) and the finite list of the
manifests produced by the subsequent per-tick rescans. The result records
the events sent, whether the loop executed `break` (after sending
`FileChanged`), and the rescans left unconsumed at the `break`. The
baseline `file_names` is never reassigned in the loop body. -/
def dir_watcher (file_names : List Files) :
    List (List Files) → List WatcherEvent × Bool × List (List Files)
  | [] => ([], false, [])
  | file_names_reloaded :: rest =>
      match get_list_differences file_names_reloaded file_names with
      | .error _ => ([], false, [])
      | .ok changes =>
          if changes.length > 0 then
            ([WatcherEvent.FileChanged changes], true, rest)
          else
            dir_watcher file_names rest

/-- One iteration of the `dir_runner` loop from `src/runners.rs`
(lines 21–56), as a function of the current baseline `file_names` and the
freshly rescanned manifest: it returns the baseline for the next iteration
and the payload of the `FileChanged` event sent this iteration, if any
(the event is sent exactly when the two manifests differ, with the
containment-filter differences as payload). -/
def dir_runner_step (file_names file_names_reloaded : List Files) :
    List Files × Option (List Files) :=
  let file_changes := file_names_reloaded.filter (fun file =>
    if ¬ file ∈ file_names then true else false)
  if file_names ≠ file_names_reloaded then
    (file_names_reloaded, some file_changes)
  else
    (file_names, none)

theorem dir_watcher_cons (b scan : List Files) (rest : List (List Files)) :
    dir_watcher b (scan :: rest) =
      if (scan.filter (fun item => if item ∈ b then false else true)).length > 0
      then ([WatcherEvent.FileChanged
        (scan.filter (fun item => if item ∈ b then false else true))], true, rest)
      else dir_watcher b rest := rfl

/-- Concrete manifest entries used by the counterexamples. -/
def fileA : Files := ⟨"a.txt", "root/a.txt", 1, "txt"⟩

def fileB : Files := ⟨"b.txt", "root/b.txt", 2, "txt"⟩

/-- Claim C4 counterexample: with an empty baseline and two rescans
`[fileA]` then `[fileB]`, `dir_watcher` sends `FileChanged [fileA]` and
then breaks (`true`), leaving the second rescan `[fileB]` unconsumed — the
watcher does not replace its baseline and keep polling; were the claim
true, the changed second scan would also be examined and reported. -/
theorem c4_watcher_breaks_counterexample :
    dir_watcher [] [[fileA], [fileB]] =
      ([WatcherEvent.FileChanged [fileA]], true, [[fileB]]) := by
  decide

/-- Claim C4 (amended): after emitting `FileChanged` the `dir_watcher` loop
of `src/utils.rs` breaks and the watcher run ends — it never replaces its
baseline; whenever the diff of a rescan against the baseline is non-empty
the run stops right there, with the remaining rescans unconsumed, having
sent that single event; continued watching is obtained instead from the
Event Coordinator, whose `FileChanged` branch respawns a fresh directory
watcher. (The orphaned `dir_runner` variant in `src/runners.rs` does
replace its baseline with the reloaded manifest and continue.) -/
theorem c4_watcher_terminates_after_report :
    (∀ (b scan : List Files) (rest : List (List Files)) (cs : List Files),
      get_list_differences scan b = Except.ok cs →
      0 < cs.length →
      dir_watcher b (scan :: rest) =
        ([WatcherEvent.FileChanged cs], true, rest)) ∧
    (∀ (b : List Files) (scans : List (List Files))
        (evs : List WatcherEvent) (rem : List (List Files)),
      dir_watcher b scans = (evs, true, rem) →
      ∃ cs, evs = [WatcherEvent.FileChanged cs]) ∧
    (∀ (s : WatchRsState) (files : List Files),
      Effect.spawnDirWatcher ∈
        (event_handler_step s
          (RecvResult.ok (WatcherEvent.FileChanged files))).2.2) ∧
    (∀ (old new : List Files), old ≠ new →
      (dir_runner_step old new).1 = new) := by
  refine ⟨?_, ?_, ?_, ?_⟩
  · intro b scan rest cs hok hlen
    have hcs : scan.filter (fun item => if item ∈ b then false else true) = cs := by
      simpa [get_list_differences] using hok
    rw [dir_watcher_cons, hcs, if_pos hlen]
  · intro b scans
    induction scans with
    | nil =>
        intro evs rem h
        simp only [dir_watcher, Prod.mk.injEq] at h
        exact absurd h.2.1 (by simp)
    | cons scan rest ih =>
        intro evs rem h
        rw [dir_watcher_cons] at h
        by_cases hlen :
          (scan.filter (fun item => if item ∈ b then false else true)).length > 0
        · rw [if_pos hlen] at h
          simp only [Prod.mk.injEq] at h
          exact ⟨_, h.1.symm⟩
        · rw [if_neg hlen] at h
          exact ih evs rem h
  · intro s files
    cases s with
    | mk pidOpt =>
        cases pidOpt with
        | none => simp [event_handler_step]
        | some pid => simp [event_handler_step]
  · intro old new hne
    simp [dir_runner_step, hne]

/-- Witness for `c4_watcher_terminates_after_report`: at the concrete
baseline `[]` and rescan `[fileA]` the watcher sends one `FileChanged` and
stops; the coordinator respawns a watcher on `FileChanged`; and
`dir_runner_step` replaces the baseline for `[] ≠ [fileA]`. -/
theorem c4_watcher_terminates_after_report_witness :
    dir_watcher [] [[fileA]] = ([WatcherEvent.FileChanged [fileA]], true, []) ∧
    (∃ cs, [WatcherEvent.FileChanged [fileA]] = [WatcherEvent.FileChanged cs]) ∧
    Effect.spawnDirWatcher ∈
      (event_handler_step ⟨none⟩
        (RecvResult.ok (WatcherEvent.FileChanged [fileA]))).2.2 ∧
    (dir_runner_step [] [fileA]).1 = [fileA] := by
  refine ⟨?_, ?_, ?_, ?_⟩
  · exact c4_watcher_terminates_after_report.1 [] [fileA] [] [fileA]
      (by rfl) (by decide)
  · exact c4_watcher_terminates_after_report.2.1 [] [[fileA]]
      [WatcherEvent.FileChanged [fileA]] [] (by rfl)
  · exact c4_watcher_terminates_after_report.2.2.1 ⟨none⟩ [fileA]
  · exact c4_watcher_terminates_after_report.2.2.2 [] [fileA] (by decide)

/-- Claim C5 counterexample: in the `dir_runner` loop of `src/runners.rs`,
a deletion-only change (baseline `[fileA]`, rescan `[]`) makes the two
manifests differ, so a `FileChanged` event is sent — with an empty
payload. -/
theorem c5_empty_payload_counterexample :
    dir_runner_step [fileA] [] = ([], some []) := by
  decide

/-- Claim C5 (amended): every `FileChanged` event sent by the `dir_watcher`
loop of `src/utils.rs` carries a non-empty list of entries; the orphaned
`dir_runner` loop of `src/runners.rs`, however, sends a `FileChanged`
whenever the two consecutive manifests differ at all, so a deletion-only
change sends a `FileChanged` whose payload is empty. -/
theorem c5_file_changed_nonempty :
    (∀ (b : List Files) (scans : List (List Files))
        (evs : List WatcherEvent) (term : Bool) (rem : List (List Files))
        (cs : List Files),
      dir_watcher b scans = (evs, term, rem) →
      WatcherEvent.FileChanged cs ∈ evs → cs ≠ []) ∧
    (∀ (old : List Files), old ≠ [] →
      (dir_runner_step old []).2 = some []) := by
  constructor
  · intro b scans
    induction scans with
    | nil =>
        intro evs term rem cs h hmem
        simp only [dir_watcher, Prod.mk.injEq] at h
        rw [← h.1] at hmem
        cases hmem
    | cons scan rest ih =>
        intro evs term rem cs h hmem
        rw [dir_watcher_cons] at h
        by_cases hlen :
          (scan.filter (fun item => if item ∈ b then false else true)).length > 0
        · rw [if_pos hlen] at h
          simp only [Prod.mk.injEq] at h
          rw [← h.1] at hmem
          simp only [List.mem_singleton, WatcherEvent.FileChanged.injEq] at hmem
          intro hnil
          rw [hmem] at hnil
          rw [hnil] at hlen
          simp at hlen
        · rw [if_neg hlen] at h
          exact ih evs term rem cs h hmem
  · intro old hold
    simp [dir_runner_step, hold]

/-- Witness for `c5_file_changed_nonempty`: the concrete run
`dir_watcher [] [[fileA]]` sends `FileChanged [fileA]`, whose payload is
non-empty, and `dir_runner_step [fileA] []` sends an empty payload. -/
theorem c5_file_changed_nonempty_witness :
    [fileA] ≠ ([] : List Files) ∧
    (dir_runner_step [fileA] []).2 = some [] := by
  refine ⟨?_, c5_file_changed_nonempty.2 [fileA] (by decide)⟩
  exact c5_file_changed_nonempty.1 [] [[fileA]]
    [WatcherEvent.FileChanged [fileA]] true [] [fileA] (by decide)
    (by simp)

/-- The result of `child_process.wait_with_output()` for one spawned
child: `code (some c)` is a normal exit with status `c`, `code none` an
exit with no status code (signal), `waitFail` an `Err` from the wait. -/
inductive WaitOutcome where
  | code (c : Option Int) : WaitOutcome
  | waitFail (msg : String) : WaitOutcome
deriving DecidableEq, Repr

/-- The outcome of one iteration of a command-supervisor loop: either the
`spawn()` call fails, or a child runs (its discovered pid recorded) and
its wait produces a `WaitOutcome`. -/
inductive IterOutcome where
  | spawnFail (msg : String) : IterOutcome
  | ran (pid : Nat) (wait : WaitOutcome) : IterOutcome
deriving DecidableEq, Repr

/-- The events sent by the command-supervisor loops of `src/utils.rs` and
`src/runners.rs` (their `Watching` send carries only the pid). -/
inductive CmdEvent where
  | watching (pid : Nat) : CmdEvent
  | starting : CmdEvent
  | error (msg : String) : CmdEvent
  | exit : CmdEvent
deriving DecidableEq, Repr

/-- The observable result of a command-supervisor run: the events sent in
order, the number of spawn attempts made, and `some msg` when the run
ended in a panic (only `cmd_runner` in `src/utils.rs` panics, via
`.expect` on the spawn). -/
structure CmdRun where
  events : List CmdEvent
  spawns : Nat
  panicMsg : Option String
deriving DecidableEq, Repr

/-- The `expect` message on the spawn in `cmd_runner`, `src/utils.rs`
line 187. -/
def spawnPanicMsg : String := "Could not create child process from given command."

/-- `cmd_runner` from `src/utils.rs` (lines 177–228, the
`target_os = "windows"` loop), as a trace function over the finite list of
per-spawn outcomes. Each consumed outcome corresponds to one spawn
attempt. A spawn failure panics at once (the `.expect`), sending nothing.
Otherwise the pid is resolved and `Watching(pid)` is sent; then exit code
0 sends `Exit` and breaks, a non-zero exit code sends `Starting` and
continues the loop (respawning), a missing exit code sends nothing and
continues, and a wait error sends `Error(msg)` and continues. -/
def cmd_runner : List IterOutcome → CmdRun
  | [] => ⟨[], 0, none⟩
  | .spawnFail _ :: _ => ⟨[], 1, some spawnPanicMsg⟩
  | .ran pid w :: rest =>
      match w with
      | .waitFail m =>
          let r := cmd_runner rest
          ⟨CmdEvent.watching pid :: CmdEvent.error m :: r.events,
            r.spawns + 1, r.panicMsg⟩
      | .code none =>
          let r := cmd_runner rest
          ⟨CmdEvent.watching pid :: r.events, r.spawns + 1, r.panicMsg⟩
      | .code (some c) =>
          if c = 0 then ⟨[CmdEvent.watching pid, CmdEvent.exit], 1, none⟩
          else
            let r := cmd_runner rest
            ⟨CmdEvent.watching pid :: CmdEvent.starting :: r.events,
              r.spawns + 1, r.panicMsg⟩

/-- `cmd_runner` from `src/runners.rs` (lines 64–123), as a trace function
over the same outcome alphabet. A spawn failure is propagated with `?`:
the function returns the IO error (recorded in the third field) without
sending any event. Otherwise `Watching` is sent after the process
discovery loop; then exit code 0 sends `Exit` and breaks, a non-zero exit
code sends `Starting` and also breaks (no respawn), a missing exit code
continues the loop, and a wait error sends `Error(msg)` and breaks. -/
def runners_cmd_runner : List IterOutcome → CmdRun
  | [] => ⟨[], 0, none⟩
  | .spawnFail m :: _ => ⟨[], 1, some m⟩
  | .ran pid w :: rest =>
      match w with
      | .waitFail m => ⟨[CmdEvent.watching pid, CmdEvent.error m], 1, none⟩
      | .code none =>
          let r := runners_cmd_runner rest
          ⟨CmdEvent.watching pid :: r.events, r.spawns + 1, r.panicMsg⟩
      | .code (some c) =>
          if c = 0 then ⟨[CmdEvent.watching pid, CmdEvent.exit], 1, none⟩
          else ⟨[CmdEvent.watching pid, CmdEvent.starting], 1, none⟩

theorem cmd_runner_spawns_pos (o : IterOutcome) (rest : List IterOutcome) :
    1 ≤ (cmd_runner (o :: rest)).spawns := by
  cases o with
  | spawnFail m => simp [cmd_runner]
  | ran pid w =>
      cases w with
      | waitFail m => simp [cmd_runner]
      | code c =>
          cases c with
          | none => simp [cmd_runner]
          | some c =>
              by_cases hc : c = 0
              · simp [cmd_runner, hc]
              · simp [cmd_runner, hc]

/-- Claim C3 counterexample: in the `cmd_runner` of `src/runners.rs`, a
child that exits with the non-zero code 1 makes the supervisor send
`Starting` and then `break` — only one spawn attempt is ever made, even
though a further outcome was available, so no new spawn follows. -/
theorem c3_no_respawn_counterexample :
    runners_cmd_runner
        [IterOutcome.ran 5 (WaitOutcome.code (some 1)),
         IterOutcome.ran 6 (WaitOutcome.code (some 0))] =
      ⟨[CmdEvent.watching 5, CmdEvent.starting], 1, none⟩ := by
  decide

/-- Claim C3 (amended): in the `cmd_runner` loop of `src/utils.rs`, a
child exit with code 0 sends exactly one `Exit` and stops the loop with no
respawn (one spawn in total, whatever outcomes would have followed), and a
non-zero exit code sends `Starting` after which the loop continues with
exactly one new spawn attempt consuming the next outcome; in the orphaned
`cmd_runner` of `src/runners.rs`, however, a non-zero exit code sends
`Starting` and then breaks the loop with no respawn. -/
theorem c3_exit_classification :
    (∀ (pid : Nat) (rest : List IterOutcome),
      cmd_runner (IterOutcome.ran pid (WaitOutcome.code (some 0)) :: rest) =
        ⟨[CmdEvent.watching pid, CmdEvent.exit], 1, none⟩) ∧
    (∀ (pid : Nat) (c : Int) (o : IterOutcome) (rest : List IterOutcome),
      c ≠ 0 →
      cmd_runner (IterOutcome.ran pid (WaitOutcome.code (some c)) :: o :: rest) =
        ⟨CmdEvent.watching pid :: CmdEvent.starting ::
            (cmd_runner (o :: rest)).events,
          (cmd_runner (o :: rest)).spawns + 1,
          (cmd_runner (o :: rest)).panicMsg⟩ ∧
      1 ≤ (cmd_runner (o :: rest)).spawns) ∧
    (∀ (pid : Nat) (c : Int) (rest : List IterOutcome),
      c ≠ 0 →
      runners_cmd_runner
          (IterOutcome.ran pid (WaitOutcome.code (some c)) :: rest) =
        ⟨[CmdEvent.watching pid, CmdEvent.starting], 1, none⟩) := by
  refine ⟨?_, ?_, ?_⟩
  · intro pid rest
    simp [cmd_runner]
  · intro pid c o rest hc
    exact ⟨by simp [cmd_runner, hc], cmd_runner_spawns_pos o rest⟩
  · intro pid c rest hc
    simp [runners_cmd_runner, hc]

/-- Witness for `c3_exit_classification` at the concrete exit codes 0 and
1: code 0 stops with one spawn; code 1 sends `Starting` and the remaining
run makes a further spawn attempt; the `runners.rs` variant stops after
`Starting`. -/
theorem c3_exit_classification_witness :
    cmd_runner [IterOutcome.ran 3 (WaitOutcome.code (some 0))] =
      ⟨[CmdEvent.watching 3, CmdEvent.exit], 1, none⟩ ∧
    (cmd_runner
        [IterOutcome.ran 3 (WaitOutcome.code (some 1)),
         IterOutcome.ran 4 (WaitOutcome.code (some 0))] =
      ⟨[CmdEvent.watching 3, CmdEvent.starting, CmdEvent.watching 4,
          CmdEvent.exit],
        2, none⟩ ∧
      1 ≤ (cmd_runner [IterOutcome.ran 4 (WaitOutcome.code (some 0))]).spawns) ∧
    runners_cmd_runner [IterOutcome.ran 3 (WaitOutcome.code (some 1))] =
      ⟨[CmdEvent.watching 3, CmdEvent.starting], 1, none⟩ := by
  refine ⟨c3_exit_classification.1 3 [], ?_, ?_⟩
  · have h := c3_exit_classification.2.1 3 1
      (IterOutcome.ran 4 (WaitOutcome.code (some 0))) [] (by decide)
    exact ⟨by rw [h.1]; decide, h.2⟩
  · exact c3_exit_classification.2.2 3 1 [] (by decide)

/-- Claim C6 counterexample: a spawn failure in the `cmd_runner` of
`src/utils.rs` panics the supervisor thread through `.expect` — no
`Error` event (indeed no event at all) is placed on the channel, and the
failure crosses the thread boundary as a panic. -/
theorem c6_spawn_panic_counterexample :
    cmd_runner [IterOutcome.spawnFail "boom"] = ⟨[], 1, some spawnPanicMsg⟩ ∧
    (cmd_runner [IterOutcome.spawnFail "boom"]).events = [] ∧
    (cmd_runner [IterOutcome.spawnFail "boom"]).panicMsg.isSome = true := by
  refine ⟨by decide, by decide, by decide⟩

/-- Claim C6 (amended): when spawning the run command fails, the
`cmd_runner` of `src/utils.rs` panics with the `.expect` message, sending
no event, and the `cmd_runner` of `src/runners.rs` ends its loop by
returning the IO error, likewise sending no event; neither converts the
spawn failure into an `Error(message)` event — `Error` events are sent
only when waiting on an already spawned child fails. -/
theorem c6_spawn_failure_behaviour :
    (∀ (msg : String) (rest : List IterOutcome),
      cmd_runner (IterOutcome.spawnFail msg :: rest) =
        ⟨[], 1, some spawnPanicMsg⟩) ∧
    (∀ (msg : String) (rest : List IterOutcome),
      runners_cmd_runner (IterOutcome.spawnFail msg :: rest) =
        ⟨[], 1, some msg⟩) ∧
    (∀ (pid : Nat) (msg : String) (rest : List IterOutcome),
      cmd_runner (IterOutcome.ran pid (WaitOutcome.waitFail msg) :: rest) =
        ⟨CmdEvent.watching pid :: CmdEvent.error msg ::
            (cmd_runner rest).events,
          (cmd_runner rest).spawns + 1, (cmd_runner rest).panicMsg⟩ ∧
      runners_cmd_runner
          (IterOutcome.ran pid (WaitOutcome.waitFail msg) :: rest) =
        ⟨[CmdEvent.watching pid, CmdEvent.error msg], 1, none⟩) := by
  refine ⟨fun msg rest => rfl, fun msg rest => rfl, fun pid msg rest => ⟨rfl, rfl⟩⟩

/-- The inner `for (pid, process) in sys.processes()` loop of
`get_executable_id` (`src/utils.rs` lines 150–158): walk the table in its
traversal order and stop at the first process whose name equals
`exe_name`, returning its pid; `none` when no entry matches. -/
def findProcess (exe_name : String) : List (Nat × String) → Option Nat
  | [] => none
  | (pid, name) :: rest =>
      if exe_name = name then some pid else findProcess exe_name rest

/-- The outer polling loop of `get_executable_id`: try each successive
process-table snapshot until one yields a match. -/
def getExecutableIdLoop (exe_name : String) :
    List (List (Nat × String)) → Option Nat
  | [] => none
  | table :: rest =>
      match findProcess exe_name table with
      | some pid => some pid
      | none => getExecutableIdLoop exe_name rest

/-- `get_executable_id` from `src/utils.rs` (lines 147–169) against a
fixed process-table snapshot: `sysinfo::System::new()` starts with an
empty process table, and every subsequent `refresh_processes()` reloads
the (fixed) snapshot, so the loop sees the table sequence
`[] :: snapshot :: snapshot :: …`; `fuel` bounds the number of refreshes
modelled (the Rust loop is unbounded and returns only on a match). -/
def get_executable_id (exe_name : String) (snapshot : List (Nat × String))
    (fuel : Nat) : Option Nat :=
  getExecutableIdLoop exe_name ([] :: List.replicate fuel snapshot)

theorem findProcess_isSome_of_match (exe_name : String)
    (snapshot : List (Nat × String)) (p : Nat × String)
    (hname : p.2 = exe_name) :
    p ∈ snapshot → (findProcess exe_name snapshot).isSome := by
  induction snapshot with
  | nil => intro hp; cases hp
  | cons q rest ih =>
      intro hp
      obtain ⟨pid, name⟩ := q
      by_cases h : exe_name = name
      · simp [findProcess, h]
      · rcases List.mem_cons.mp hp with hpq | hpr
        · rw [hpq] at hname
          exact absurd hname.symm h
        · simpa [findProcess, h] using ih hpr

/-- Claim C9: against a fixed process-table snapshot containing at least
one process whose name equals the candidate executable name, the polling
loop of `get_executable_id` returns exactly one pid — the one of the first
match in the snapshot's traversal order, i.e. `findProcess`'s result — for
every positive refresh budget, and two runs over the same snapshot return
the same pid. -/
theorem c9_get_executable_id_first_match (exe_name : String)
    (snapshot : List (Nat × String)) (p : Nat × String) :
    p ∈ snapshot → p.2 = exe_name →
    ∃ pid, findProcess exe_name snapshot = some pid ∧
      (∀ fuel, 1 ≤ fuel →
        get_executable_id exe_name snapshot fuel = some pid) ∧
      (∀ fuel₁ fuel₂, 1 ≤ fuel₁ → 1 ≤ fuel₂ →
        get_executable_id exe_name snapshot fuel₁ =
          get_executable_id exe_name snapshot fuel₂) := by
  intro hp hname
  obtain ⟨pid, hpid⟩ :=
    Option.isSome_iff_exists.mp (findProcess_isSome_of_match exe_name snapshot p hname hp)
  have hrun : ∀ fuel, 1 ≤ fuel →
      get_executable_id exe_name snapshot fuel = some pid := by
    intro fuel hfuel
    obtain ⟨n, rfl⟩ : ∃ n, fuel = n + 1 :=
      ⟨fuel - 1, (Nat.succ_pred_eq_of_pos hfuel).symm⟩
    simp [get_executable_id, getExecutableIdLoop, findProcess,
      List.replicate_succ, hpid]
  exact ⟨pid, hpid, hrun, fun f₁ f₂ h₁ h₂ => by rw [hrun f₁ h₁, hrun f₂ h₂]⟩

/-- Witness for `c9_get_executable_id_first_match`: the snapshot
`[(3, "other"), (7, "app.exe"), (9, "app.exe")]` has two matches for
`"app.exe"`; the loop returns the traversal-order first pid 7 for every
positive fuel. -/
theorem c9_get_executable_id_first_match_witness :
    ∃ pid, findProcess "app.exe" [(3, "other"), (7, "app.exe"), (9, "app.exe")] =
        some pid ∧
      (∀ fuel, 1 ≤ fuel →
        get_executable_id "app.exe" [(3, "other"), (7, "app.exe"), (9, "app.exe")]
          fuel = some pid) ∧
      (∀ fuel₁ fuel₂, 1 ≤ fuel₁ → 1 ≤ fuel₂ →
        get_executable_id "app.exe" [(3, "other"), (7, "app.exe"), (9, "app.exe")]
            fuel₁ =
          get_executable_id "app.exe" [(3, "other"), (7, "app.exe"), (9, "app.exe")]
            fuel₂) :=
  c9_get_executable_id_first_match "app.exe"
    [(3, "other"), (7, "app.exe"), (9, "app.exe")] (7, "app.exe")
    (by decide) (by decide)

/-- An explicit filesystem snapshot for the scanner: a node is a file
(with the name, full path, modification time and extension its `DirEntry`
metadata yields), a directory whose `read_dir` succeeds with the listed
children, a directory whose `read_dir` fails (`errDir`), or a child entry
whose own read (`entry?` in the loop) fails (`errEntry`). IO errors are
modelled as `String`. -/
inductive FSNode where
  | file (name path : String) (time : Nat) (ext : String) : FSNode
  | dir (path : String) (children : List FSNode) : FSNode
  | errDir (path : String) (msg : String) : FSNode
  | errEntry (msg : String) : FSNode

mutual

/-- `visit_dirs` from `src/utils.rs` (lines 11–28), fused with the
`Files`-record mapping of `grab_directory_and_files` (the callback pushes
each found `DirEntry`, which lines 49–60 then map 1–1 to `Files`): when
the node is a directory not contained in `ignored_paths`, read it —
propagating a read failure — and process its entries in order; a non-
directory node at the top is skipped (`is_dir()` is false). -/
def visit_dirs (ignored_paths : List String) : FSNode → Except String (List Files)
  | .file _ _ _ _ => .ok []
  | .errEntry _ => .ok []
  | .errDir path msg =>
      if path ∈ ignored_paths then .ok [] else .error msg
  | .dir path children =>
      if path ∈ ignored_paths then .ok []
      else visitEntries ignored_paths children

/-- The `for entry in read_dir(file)?` body of `visit_dirs`: each entry is
itself fallible (`entry?`); a directory entry is recursed into, any other
entry is passed to the callback. An error anywhere stops the loop and
propagates. -/
def visitEntries (ignored_paths : List String) :
    List FSNode → Except String (List Files)
  | [] => .ok []
  | .errEntry msg :: _ => .error msg
  | .file name path time ext :: rest => do
      let more ← visitEntries ignored_paths rest
      pure (⟨name, path, time, ext⟩ :: more)
  | .dir path children :: rest => do
      let here ← visit_dirs ignored_paths (.dir path children)
      let more ← visitEntries ignored_paths rest
      pure (here ++ more)
  | .errDir path msg :: rest => do
      let here ← visit_dirs ignored_paths (.errDir path msg)
      let more ← visitEntries ignored_paths rest
      pure (here ++ more)

end

/-- `grab_directory_and_files` from `src/utils.rs` (lines 34–63): scan the
root with the single hard-coded ignored path `dir_path ++ "/target"`,
propagating any traversal error. -/
def grab_directory_and_files (dir_path : String) (root : FSNode) :
    Except String (List Files) :=
  visit_dirs [dir_path ++ "/target"] root

mutual

/-- Statement-side characterisation for claim C8: does the traversal of
this node reach a failing directory read or failing entry read (ignored
directories are pruned and so never reached)? -/
def hasReadError (ignored_paths : List String) : FSNode → Bool
  | .file _ _ _ _ => false
  | .errEntry _ => false
  | .errDir path _ => decide (path ∉ ignored_paths)
  | .dir path children =>
      if path ∈ ignored_paths then false
      else hasReadErrorEntries ignored_paths children

/-- `hasReadError` over a directory's entry list. -/
def hasReadErrorEntries (ignored_paths : List String) : List FSNode → Bool
  | [] => false
  | .errEntry _ :: _ => true
  | .file _ _ _ _ :: rest => hasReadErrorEntries ignored_paths rest
  | .dir path children :: rest =>
      hasReadError ignored_paths (.dir path children) ||
        hasReadErrorEntries ignored_paths rest
  | .errDir path msg :: rest =>
      hasReadError ignored_paths (.errDir path msg) ||
        hasReadErrorEntries ignored_paths rest

end

/-- Whether an `Except` result is an error. -/
def isErr {α : Type} : Except String α → Bool
  | .error _ => true
  | .ok _ => false

theorem except_ok_nil_bind (e : Except String (List Files)) :
    (do
      let here ← Except.ok ([] : List Files)
      let more ← e
      pure (here ++ more)) = e := by
  cases e <;> rfl

theorem isErr_bind_cons (e : Except String (List Files)) (f : Files) :
    isErr (do
      let more ← e
      pure (f :: more)) = isErr e := by
  cases e <;> rfl

theorem isErr_bind_append (e₁ e₂ : Except String (List Files)) :
    isErr (do
      let here ← e₁
      let more ← e₂
      pure (here ++ more)) = (isErr e₁ || isErr e₂) := by
  cases e₁ <;> cases e₂ <;> rfl

/-- The concrete scenario tree of claim C7: a root containing
`src/a.txt`, `src/b.txt` and `target/debug/app.exe`. -/
def scenarioRoot : FSNode :=
  FSNode.dir "root"
    [FSNode.dir "root/src"
      [FSNode.file "a.txt" "root/src/a.txt" 1 "txt",
       FSNode.file "b.txt" "root/src/b.txt" 2 "txt"],
     FSNode.dir "root/target"
       [FSNode.dir "root/target/debug"
         [FSNode.file "app.exe" "root/target/debug/app.exe" 3 "exe"]]]

/-- Claim C7: a directory whose path exactly equals an `ignored_paths`
entry is pruned before descent — it scans to nothing, and removing such a
directory from any entry list leaves the scan of that list unchanged, so
no file under it ever appears in the manifest; in particular, scanning the
scenario root (with the hard-coded ignored path `root/target`) returns
exactly the two `src` entries. -/
theorem c7_ignored_dir_pruned :
    (∀ (ignored_paths : List String) (q : String) (cs : List FSNode),
      q ∈ ignored_paths →
      visit_dirs ignored_paths (FSNode.dir q cs) = Except.ok []) ∧
    (∀ (ignored_paths : List String) (pre post : List FSNode) (q : String)
        (cs : List FSNode),
      q ∈ ignored_paths →
      visitEntries ignored_paths (pre ++ FSNode.dir q cs :: post) =
        visitEntries ignored_paths (pre ++ post)) ∧
    grab_directory_and_files "root" scenarioRoot =
      Except.ok [⟨"a.txt", "root/src/a.txt", 1, "txt"⟩,
        ⟨"b.txt", "root/src/b.txt", 2, "txt"⟩] := by
  have hprune : ∀ (ignored_paths : List String) (q : String) (cs : List FSNode),
      q ∈ ignored_paths →
      visit_dirs ignored_paths (FSNode.dir q cs) = Except.ok [] := by
    intro ignored_paths q cs hq
    simp [visit_dirs, hq]
  refine ⟨hprune, ?_, ?_⟩
  · intro ignored_paths pre post q cs hq
    induction pre with
    | nil =>
        simp only [List.nil_append, visitEntries]
        rw [hprune ignored_paths q cs hq, except_ok_nil_bind]
    | cons x rest ih =>
        cases x with
        | errEntry msg => rfl
        | file name path time ext =>
            simp only [List.cons_append, visitEntries, List.append_eq]
            rw [ih]
        | dir path children =>
            simp only [List.cons_append, visitEntries, List.append_eq]
            rw [ih]
        | errDir path msg =>
            simp only [List.cons_append, visitEntries, List.append_eq]
            rw [ih]
  · rfl

/-- Witness for `c7_ignored_dir_pruned` at the concrete ignore list
`["root/target"]`: the target directory of the scenario scans to nothing,
its removal leaves the scan unchanged, and the scenario scan returns the
two `src` entries. -/
theorem c7_ignored_dir_pruned_witness :
    visit_dirs ["root/target"]
        (FSNode.dir "root/target"
          [FSNode.dir "root/target/debug"
            [FSNode.file "app.exe" "root/target/debug/app.exe" 3 "exe"]]) =
      Except.ok [] ∧
    visitEntries ["root/target"]
        ([FSNode.file "a.txt" "root/a.txt" 1 "txt"] ++
          FSNode.dir "root/target" [] :: []) =
      visitEntries ["root/target"]
        ([FSNode.file "a.txt" "root/a.txt" 1 "txt"] ++ []) ∧
    grab_directory_and_files "root" scenarioRoot =
      Except.ok [⟨"a.txt", "root/src/a.txt", 1, "txt"⟩,
        ⟨"b.txt", "root/src/b.txt", 2, "txt"⟩] :=
  ⟨c7_ignored_dir_pruned.1 ["root/target"] "root/target"
      [FSNode.dir "root/target/debug"
        [FSNode.file "app.exe" "root/target/debug/app.exe" 3 "exe"]]
      (by decide),
    c7_ignored_dir_pruned.2.1 ["root/target"]
      [FSNode.file "a.txt" "root/a.txt" 1 "txt"] [] "root/target" []
      (by decide),
    c7_ignored_dir_pruned.2.2⟩

mutual

theorem visit_dirs_isErr (ignored_paths : List String) (t : FSNode) :
    isErr (visit_dirs ignored_paths t) = hasReadError ignored_paths t := by
  cases t with
  | file name path time ext => rfl
  | errEntry msg => rfl
  | errDir path msg =>
      by_cases hp : path ∈ ignored_paths
      · simp [visit_dirs, hasReadError, hp, isErr]
      · simp [visit_dirs, hasReadError, hp, isErr]
  | dir path children =>
      by_cases hp : path ∈ ignored_paths
      · simp [visit_dirs, hasReadError, hp, isErr]
      · simp only [visit_dirs, hasReadError, if_neg hp]
        exact visitEntries_isErr ignored_paths children

theorem visitEntries_isErr (ignored_paths : List String) (l : List FSNode) :
    isErr (visitEntries ignored_paths l) =
      hasReadErrorEntries ignored_paths l := by
  cases l with
  | nil => rfl
  | cons x rest =>
      cases x with
      | errEntry msg => rfl
      | file name path time ext =>
          simp only [visitEntries, hasReadErrorEntries, isErr_bind_cons]
          exact visitEntries_isErr ignored_paths rest
      | dir path children =>
          simp only [visitEntries, hasReadErrorEntries, isErr_bind_append]
          rw [visit_dirs_isErr ignored_paths (FSNode.dir path children),
            visitEntries_isErr ignored_paths rest]
      | errDir path msg =>
          simp only [visitEntries, hasReadErrorEntries, isErr_bind_append]
          rw [visit_dirs_isErr ignored_paths (FSNode.errDir path msg),
            visitEntries_isErr ignored_paths rest]

end

/-- Claim C8: the scan fails exactly when some directory read or entry
read reachable by the traversal fails — the error propagates out from any
depth of the recursion — and in that case `grab_directory_and_files`
returns no manifest at all: no partial result is ever produced. -/
theorem c8_scan_error_propagation :
    (∀ (ignored_paths : List String) (t : FSNode),
      isErr (visit_dirs ignored_paths t) = hasReadError ignored_paths t) ∧
    (∀ (dir_path : String) (root : FSNode),
      isErr (grab_directory_and_files dir_path root) =
        hasReadError [dir_path ++ "/target"] root) ∧
    (∀ (dir_path : String) (root : FSNode) (manifest : List Files),
      hasReadError [dir_path ++ "/target"] root = true →
      grab_directory_and_files dir_path root ≠ Except.ok manifest) := by
  refine ⟨visit_dirs_isErr, ?_, ?_⟩
  · intro dir_path root
    exact visit_dirs_isErr [dir_path ++ "/target"] root
  · intro dir_path root manifest herr hok
    have h := visit_dirs_isErr [dir_path ++ "/target"] root
    rw [herr] at h
    unfold grab_directory_and_files at hok
    rw [hok] at h
    simp [isErr] at h

/-- Witness for `c8_scan_error_propagation`: a root whose `src`
subdirectory fails to read makes the whole scan fail — the result of the
scan is an error and never `Ok`, even though a sibling file was readable. -/
theorem c8_scan_error_propagation_witness :
    isErr (grab_directory_and_files "root"
        (FSNode.dir "root"
          [FSNode.file "a.txt" "root/a.txt" 1 "txt",
           FSNode.errDir "root/src" "permission denied"])) =
      hasReadError ["root" ++ "/target"]
        (FSNode.dir "root"
          [FSNode.file "a.txt" "root/a.txt" 1 "txt",
           FSNode.errDir "root/src" "permission denied"]) ∧
    grab_directory_and_files "root"
        (FSNode.dir "root"
          [FSNode.file "a.txt" "root/a.txt" 1 "txt",
           FSNode.errDir "root/src" "permission denied"]) ≠
      Except.ok [⟨"a.txt", "root/a.txt", 1, "txt"⟩] :=
  ⟨c8_scan_error_propagation.2.1 "root"
      (FSNode.dir "root"
        [FSNode.file "a.txt" "root/a.txt" 1 "txt",
         FSNode.errDir "root/src" "permission denied"]),
    c8_scan_error_propagation.2.2 "root"
      (FSNode.dir "root"
        [FSNode.file "a.txt" "root/a.txt" 1 "txt",
         FSNode.errDir "root/src" "permission denied"])
      [⟨"a.txt", "root/a.txt", 1, "txt"⟩] (by rfl)⟩

end WatchRs
